import Mathlib

/-!
Verification development for the EDGAR dashboard repository.

The repository's core (src/financialData.py, src/test.py, src/testingClaude.py)
parses SEC XBRL company-concept facts, merges them into a quarterly table and
computes QoQ/YoY changes.  This file gives a shallow embedding of that core:

* numeric cells are modelled by `PVal`, an extended-rational model of pandas
  float cells (`na` covers both "missing" and NaN, which pandas does not
  distinguish; `inf`/`ninf` model the IEEE infinities produced by division by
  zero; rounding of finite values is not modelled, arithmetic is exact);
* dates (`end`, `filed`) are modelled as day ordinals (`Nat`), order-isomorphic
  to the date strings the source feeds to `pd.to_datetime`;
* `pandas.sort_values` is modelled by a stable insertion sort; the source uses
  the default quicksort whose order on tie keys is unspecified, so on ties the
  model fixes one admissible order (no theorem below depends on tie order);
* `pandas.merge(..., how="outer")` sorts the result by the join key; since the
  source immediately re-sorts by date, the model keeps the simpler
  concatenation order (again only tie order can differ);
* Python `int(...)` is modelled by `pyInt` (whitespace stripping, optional
  sign, decimal digits; exotic forms such as underscore separators or
  non-ASCII digits are not modelled — no frame label in scope contains them).
-/

/-- Model of one pandas cell: missing/NaN, plus or minus infinity, or an exact
number standing for a float.  `na` models both an absent value and NaN. -/
inductive PVal where
  | na : PVal
  | inf : PVal
  | ninf : PVal
  | num : ℚ → PVal
deriving DecidableEq

/-- Model of `pd.notna`: NaN (and only NaN) is "not a value"; infinities count
as present values in pandas. -/
def notna : PVal → Bool
  | .na => false
  | _ => true

/-- Model of the `x != 0` test on a pandas cell (used on values already known
to be non-NaN; NaN compares as "not equal" to 0 in pandas, as here). -/
def isZero : PVal → Bool
  | .num q => q = 0
  | _ => false

/-- Float subtraction on cells: any operation with NaN gives NaN,
`inf - inf = NaN`, otherwise the usual extended-real rules. -/
def psub : PVal → PVal → PVal
  | .na, _ => .na
  | _, .na => .na
  | .inf, .inf => .na
  | .inf, _ => .inf
  | .ninf, .ninf => .na
  | .ninf, _ => .ninf
  | .num _, .inf => .ninf
  | .num _, .ninf => .inf
  | .num a, .num b => .num (a - b)

/-- Float division on cells, modelling numpy/pandas semantics: a finite
nonzero value divided by zero gives a signed infinity, `0/0` gives NaN,
finite/inf gives 0, inf/inf gives NaN.  (IEEE signed zero is not modelled:
`ℚ` has a single zero, treated as `+0`.) -/
def pdiv : PVal → PVal → PVal
  | .na, _ => .na
  | _, .na => .na
  | .inf, .inf => .na
  | .inf, .ninf => .na
  | .ninf, .inf => .na
  | .ninf, .ninf => .na
  | .inf, .num b => if b < 0 then .ninf else .inf
  | .ninf, .num b => if b < 0 then .inf else .ninf
  | .num _, .inf => .num 0
  | .num _, .ninf => .num 0
  | .num a, .num b =>
    if b = 0 then (if a = 0 then .na else if a < 0 then .ninf else .inf)
    else .num (a / b)

/-- The five metric columns of the financial table (`metric_cols` in the
source; the first four are fetched, `Gross Margin` is derived). -/
inductive Metric where
  | revenue : Metric
  | grossProfit : Metric
  | netIncome : Metric
  | cashFlow : Metric
  | grossMargin : Metric
deriving DecidableEq

/-- One table row's metric cells. -/
structure Vals where
  revenue : PVal
  grossProfit : PVal
  netIncome : PVal
  cashFlow : PVal
  grossMargin : PVal
deriving DecidableEq

/-- Read the cell of a metric column. -/
def getVal (v : Vals) : Metric → PVal
  | .revenue => v.revenue
  | .grossProfit => v.grossProfit
  | .netIncome => v.netIncome
  | .cashFlow => v.cashFlow
  | .grossMargin => v.grossMargin

/-- Replace the cell of a metric column. -/
def setVal (v : Vals) : Metric → PVal → Vals
  | .revenue, x => { v with revenue := x }
  | .grossProfit, x => { v with grossProfit := x }
  | .netIncome, x => { v with netIncome := x }
  | .cashFlow, x => { v with cashFlow := x }
  | .grossMargin, x => { v with grossMargin := x }

/-- All cells missing (a freshly created row before any column is filled). -/
def emptyVals : Vals := ⟨.na, .na, .na, .na, .na⟩

/-- One row of the merged quarterly table: period-end date, `frame`
(duplicated into the `Quarter` column by the source, so a single field here),
and the metric cells. -/
structure Row where
  date : ℕ
  frame : String
  vals : Vals
deriving DecidableEq

/-- One raw fact entry from the SEC `units.USD` array.  `hasEnd` models the
`'end' in entry` test; `filed` is present in the raw SEC data but is never
read by the source code (relevant to claim C1). -/
structure RawEntry where
  hasEnd : Bool
  endDate : ℕ
  val : ℚ
  form : String
  fy : String
  fp : String
  frame : String
  filed : ℕ
deriving DecidableEq

/-- One normalized record produced by `parse_data` (the source keeps
`date, val, form, fy, fp, frame`; `filed` is dropped). -/
structure Record where
  date : ℕ
  val : ℚ
  form : String
  fy : String
  fp : String
  frame : String
deriving DecidableEq

/-- Stable insertion step for a descending sort by `key`: the new element goes
in front of the first element whose key is not larger (so equal keys keep
their original relative order). -/
def insertDescBy (key : α → ℕ) (a : α) : List α → List α
  | [] => [a]
  | b :: l => if key a < key b then b :: insertDescBy key a l else a :: b :: l

/-- Stable descending sort by `key`, modelling `sort_values(..., ascending=False)`. -/
def sortDescBy (key : α → ℕ) (l : List α) : List α :=
  l.foldr (insertDescBy key) []

theorem mem_insertDescBy (key : α → ℕ) (a x : α) :
    ∀ l : List α, x ∈ insertDescBy key a l ↔ x = a ∨ x ∈ l := by
  intro l
  induction l with
  | nil => simp [insertDescBy]
  | cons b l ih =>
    by_cases h : key a < key b
    · simp only [insertDescBy, if_pos h, List.mem_cons, ih]
      tauto
    · simp only [insertDescBy, if_neg h, List.mem_cons]

theorem mem_sortDescBy (key : α → ℕ) (x : α) :
    ∀ l : List α, x ∈ sortDescBy key l ↔ x ∈ l := by
  intro l
  induction l with
  | nil => simp [sortDescBy]
  | cons b l ih =>
    simp only [sortDescBy, List.foldr_cons, List.mem_cons]
    rw [show List.foldr (insertDescBy key) [] l = sortDescBy key l from rfl] at *
    rw [mem_insertDescBy, ih]

theorem pairwise_insertDescBy (key : α → ℕ) (a : α) :
    ∀ l : List α, l.Pairwise (fun x y => key y ≤ key x) →
      (insertDescBy key a l).Pairwise (fun x y => key y ≤ key x) := by
  intro l
  induction l with
  | nil => simp [insertDescBy]
  | cons b l ih =>
    intro hp
    rcases List.pairwise_cons.mp hp with ⟨hb, hl⟩
    by_cases h : key a < key b
    · simp only [insertDescBy, if_pos h]
      refine List.pairwise_cons.mpr ⟨?_, ih hl⟩
      intro x hx
      rcases (mem_insertDescBy key a x l).mp hx with rfl | hx
      · exact Nat.le_of_lt h
      · exact hb x hx
    · simp only [insertDescBy, if_neg h]
      refine List.pairwise_cons.mpr ⟨?_, hp⟩
      intro x hx
      rcases List.mem_cons.mp hx with rfl | hx
      · exact Nat.le_of_not_lt h
      · exact le_trans (hb x hx) (Nat.le_of_not_lt h)

theorem pairwise_sortDescBy (key : α → ℕ) :
    ∀ l : List α, (sortDescBy key l).Pairwise (fun x y => key y ≤ key x) := by
  intro l
  induction l with
  | nil => simp [sortDescBy]
  | cons b l ih =>
    exact pairwise_insertDescBy key b _ ih

/-! ### Decimal digits, Python `str` and `int` models -/

/-- The character of a decimal digit value. -/
def digitChar (d : ℕ) : Char := Char.ofNat (48 + d)

/-- ASCII decimal digit test (codepoints 48–57). -/
def isDig (c : Char) : Bool := 48 ≤ c.toNat && c.toNat ≤ 57

/-- Value of a decimal digit character. -/
def digitVal (c : Char) : ℕ := c.toNat - 48

/-- Whitespace test for the model of Python's `int` stripping
(space, tab, newline, carriage return). -/
def isSpaceC (c : Char) : Bool :=
  c.toNat = 32 || c.toNat = 9 || c.toNat = 10 || c.toNat = 13

/-- Strip whitespace from both ends of a character list. -/
def stripC (l : List Char) : List Char :=
  ((l.dropWhile isSpaceC).reverse.dropWhile isSpaceC).reverse

/-- Parse a nonempty all-digit character list as a natural number. -/
def parseDigitsNat (l : List Char) : Option ℕ :=
  if l.isEmpty then none
  else if l.all isDig then
    some (l.foldl (fun a c => 10 * a + digitVal c) 0)
  else none

/-- Sign handling of the Python `int(s)` model, applied to the stripped
character list (codepoints 45 = minus, 43 = plus). -/
def pyIntAux : List Char → Option Int
  | [] => none
  | c :: rest =>
    if c.toNat = 45 then (parseDigitsNat rest).map (fun n => -(n : Int))
    else if c.toNat = 43 then (parseDigitsNat rest).map (fun n => (n : Int))
    else (parseDigitsNat (c :: rest)).map (fun n => (n : Int))

/-- Model of Python `int(s)`: strip whitespace, optional single sign,
then decimal digits. -/
def pyInt (l : List Char) : Option Int := pyIntAux (stripC l)

/-- Fuel-based big-endian decimal rendering of a positive natural number
(fuel at least the number itself suffices). -/
def natCharsAux : ℕ → ℕ → List Char
  | 0, _ => []
  | _ + 1, 0 => []
  | f + 1, n + 1 => natCharsAux f ((n + 1) / 10) ++ [digitChar ((n + 1) % 10)]

/-- Model of Python `str(n)` for a natural number. -/
def natChars (n : ℕ) : List Char := if n = 0 then ['0'] else natCharsAux n n

/-- Model of Python `str(i)` for an integer. -/
def charsOfInt (i : Int) : List Char :=
  if i < 0 then '-' :: natChars i.natAbs else natChars i.toNat

theorem natCharsAux_zero : ∀ f, natCharsAux f 0 = [] := by
  intro f
  cases f <;> rfl

theorem isDig_digitChar {d : ℕ} (hd : d < 10) : isDig (digitChar d) = true := by
  interval_cases d <;> decide

theorem digitVal_digitChar {d : ℕ} (hd : d < 10) : digitVal (digitChar d) = d := by
  interval_cases d <;> decide

theorem natCharsAux_spec :
    ∀ f n, 0 < n → n ≤ f →
      natCharsAux f n ≠ [] ∧ (natCharsAux f n).all isDig = true ∧
        ∀ a : ℕ, (natCharsAux f n).foldl (fun a c => 10 * a + digitVal c) a =
          a * 10 ^ (natCharsAux f n).length + n := by
  intro f
  induction f with
  | zero => intro n hn hf; omega
  | succ f ih =>
    intro n hn hf
    obtain ⟨m, rfl⟩ : ∃ m, n = m + 1 := ⟨n - 1, by omega⟩
    show natCharsAux (f + 1) (m + 1) ≠ [] ∧ _
    rw [show natCharsAux (f + 1) (m + 1) =
      natCharsAux f ((m + 1) / 10) ++ [digitChar ((m + 1) % 10)] from rfl]
    have hmod : (m + 1) % 10 < 10 := Nat.mod_lt _ (by omega)
    by_cases hdiv : (m + 1) / 10 = 0
    · rw [hdiv, natCharsAux_zero]
      refine ⟨by simp, by simp [isDig_digitChar hmod], ?_⟩
      intro a
      have hlt : m + 1 < 10 := by omega
      simp only [List.nil_append, List.foldl_cons, List.foldl_nil, List.length_cons,
        List.length_nil, digitVal_digitChar hmod]
      rw [Nat.mod_eq_of_lt hlt]
      ring_nf
    · have hdle : (m + 1) / 10 ≤ f := by
        have := Nat.div_lt_self (by omega : 0 < m + 1) (by omega : 1 < 10)
        omega
      obtain ⟨hne, hall, hfold⟩ := ih ((m + 1) / 10) (by omega) hdle
      refine ⟨by simp, ?_, ?_⟩
      · simp [List.all_append, hall, isDig_digitChar hmod]
      · intro a
        rw [List.foldl_append, List.foldl, List.foldl, hfold a,
          digitVal_digitChar hmod, List.length_append]
        simp only [List.length_cons, List.length_nil]
        have := Nat.div_add_mod (m + 1) 10
        rw [pow_succ]
        ring_nf
        omega

theorem natChars_ne_nil (n : ℕ) : natChars n ≠ [] := by
  unfold natChars
  by_cases hn : n = 0
  · simp [hn]
  · simp only [if_neg hn]
    exact (natCharsAux_spec n n (by omega) le_rfl).1

theorem natChars_all_isDig (n : ℕ) : (natChars n).all isDig = true := by
  unfold natChars
  by_cases hn : n = 0
  · simp [hn]; decide
  · simp only [if_neg hn]
    exact (natCharsAux_spec n n (by omega) le_rfl).2.1

theorem parseDigitsNat_natChars (n : ℕ) : parseDigitsNat (natChars n) = some n := by
  by_cases hn : n = 0
  · subst hn; decide
  · unfold parseDigitsNat
    rw [if_neg (by simp [natChars_ne_nil n]), if_pos (natChars_all_isDig n)]
    congr 1
    unfold natChars
    simp only [if_neg hn]
    have := (natCharsAux_spec n n (by omega) le_rfl).2.2 0
    simpa using this

theorem length_natChars_of_bounds {n k : ℕ} (h1 : 10 ^ k ≤ n) (h2 : n < 10 ^ (k + 1)) :
    (natChars n).length = k + 1 := by
  have hn : n ≠ 0 := by
    have : 1 ≤ 10 ^ k := Nat.one_le_pow _ _ (by omega)
    omega
  unfold natChars
  simp only [if_neg hn]
  clear hn
  have main : ∀ f k n, 0 < n → n ≤ f → 10 ^ k ≤ n → n < 10 ^ (k + 1) →
      (natCharsAux f n).length = k + 1 := by
    intro f
    induction f with
    | zero => intro k n h1 h2 h3 h4; omega
    | succ f ih =>
      intro k n hpos hle hlo hhi
      obtain ⟨m, rfl⟩ : ∃ m, n = m + 1 := ⟨n - 1, by omega⟩
      rw [show natCharsAux (f + 1) (m + 1) =
        natCharsAux f ((m + 1) / 10) ++ [digitChar ((m + 1) % 10)] from rfl]
      cases k with
      | zero =>
        have : m + 1 < 10 := by simpa using hhi
        have hdiv : (m + 1) / 10 = 0 := Nat.div_eq_of_lt this
        rw [hdiv, natCharsAux_zero]
        simp
      | succ j =>
        have h10 : 10 ^ (j + 1) ≤ m + 1 := hlo
        have hlo' : 10 ^ j ≤ (m + 1) / 10 := by
          rw [Nat.le_div_iff_mul_le (by omega)]
          calc 10 ^ j * 10 = 10 ^ (j + 1) := by rw [pow_succ]
          _ ≤ m + 1 := h10
        have hhi' : (m + 1) / 10 < 10 ^ (j + 1) := by
          rw [Nat.div_lt_iff_lt_mul (by omega)]
          calc m + 1 < 10 ^ (j + 1 + 1) := hhi
          _ = 10 ^ (j + 1) * 10 := by rw [pow_succ]
        have hpos' : 0 < (m + 1) / 10 := by
          have : 1 ≤ 10 ^ j := Nat.one_le_pow _ _ (by omega)
          omega
        have hle' : (m + 1) / 10 ≤ f := by
          have := Nat.div_lt_self (by omega : 0 < m + 1) (by omega : 1 < 10)
          omega
        rw [List.length_append, ih j ((m + 1) / 10) hpos' hle' hlo' hhi']
        simp
  exact main n k n (by omega) le_rfl h1 h2

theorem isSpaceC_eq_false_of_isDig {c : Char} (h : isDig c = true) :
    isSpaceC c = false := by
  simp only [isDig, Bool.and_eq_true, decide_eq_true_eq] at h
  simp only [isSpaceC, Bool.or_eq_false_iff, decide_eq_false_iff_not]
  omega

theorem dropWhile_isSpaceC_of_all_isDig {l : List Char} (h : l.all isDig = true) :
    l.dropWhile isSpaceC = l := by
  cases l with
  | nil => rfl
  | cons c l =>
    simp only [List.all_cons, Bool.and_eq_true] at h
    rw [List.dropWhile_cons, isSpaceC_eq_false_of_isDig h.1]
    simp

theorem stripC_of_all_isDig {l : List Char} (h : l.all isDig = true) :
    stripC l = l := by
  unfold stripC
  rw [dropWhile_isSpaceC_of_all_isDig h,
    dropWhile_isSpaceC_of_all_isDig (by simpa [List.all_reverse] using h),
    List.reverse_reverse]

theorem pyInt_natChars (n : ℕ) : pyInt (natChars n) = some (n : Int) := by
  obtain ⟨c, rest, hcr⟩ : ∃ c rest, natChars n = c :: rest := by
    cases hh : natChars n with
    | nil => exact absurd hh (natChars_ne_nil n)
    | cons c rest => exact ⟨c, rest, rfl⟩
  have hdig : isDig c = true := by
    have := natChars_all_isDig n
    rw [hcr] at this
    simp only [List.all_cons, Bool.and_eq_true] at this
    exact this.1
  have hc : 48 ≤ c.toNat := by
    simp only [isDig, Bool.and_eq_true, decide_eq_true_eq] at hdig
    exact hdig.1
  unfold pyInt
  rw [stripC_of_all_isDig (natChars_all_isDig n), hcr]
  simp only [pyIntAux, if_neg (by omega : ¬c.toNat = 45), if_neg (by omega : ¬c.toNat = 43)]
  rw [← hcr, parseDigitsNat_natChars]
  rfl

/-! ### Frame strings and the comparator's frame parsing -/

/-- Model of `"Q" in s` for a character list ('Q' has codepoint 81). -/
def hasQc (cs : List Char) : Bool := cs.any (fun c => c.toNat = 81)

/-- Model of `s.startswith("CY")`. -/
def startsWithCY : List Char → Bool
  | c1 :: c2 :: _ => c1 == 'C' && c2 == 'Y'
  | _ => false

/-- Model of `"Q" in frame` on a `String` (the filter used by `parse_data`). -/
def hasQ (s : String) : Bool := hasQc s.data

/-- The comparator's frame parsing (src/financialData.py lines 116–122):
if the label starts with `"CY"` and contains `"Q"`, read
`int(label[2:6])` as the year and `int(label[-1])` as the quarter; any
failure (including a `ValueError` from `int`) yields `none`, which the
source turns into all-"N/A" results. -/
def parseCY (s : String) : Option (Int × Int) :=
  let cs := s.data
  if startsWithCY cs && hasQc cs then
    match pyInt ((cs.drop 2).take 4), (match cs.getLast? with
      | some c => pyInt [c]
      | none => none) with
    | some y, some q => some (y, q)
    | _, _ => none
  else none

/-- The frame label `f"CY{y}Q{q}"` built by the source's f-strings. -/
def frameString (y q : Int) : String :=
  ⟨'C' :: 'Y' :: (charsOfInt y ++ 'Q' :: charsOfInt q)⟩

/-- QoQ baseline frame (src/financialData.py lines 125–129): same year,
previous quarter; for quarter 1, Q4 of the previous year. -/
def prev_quarter_frame (year quarter : Int) : String :=
  if quarter > 1 then frameString year (quarter - 1) else frameString (year - 1) 4

/-- YoY baseline frame (src/financialData.py line 140): previous year,
same quarter. -/
def prev_year_frame (year quarter : Int) : String :=
  frameString (year - 1) quarter

theorem charsOfInt_ofNat (n : ℕ) : charsOfInt (n : Int) = natChars n := by
  unfold charsOfInt
  rw [if_neg (by omega), Int.toNat_ofNat]

theorem parseCY_frameString {y q : ℕ} (hy1 : 1000 ≤ y) (hy2 : y ≤ 9999)
    (hq1 : 1 ≤ q) (hq2 : q ≤ 9) :
    parseCY (frameString (y : Int) (q : Int)) = some ((y : Int), (q : Int)) := by
  have hylen : (natChars y).length = 4 :=
    length_natChars_of_bounds (k := 3) (by norm_num; omega) (by norm_num; omega)
  have hqchars : natChars q = [digitChar q] := by
    interval_cases q <;> rfl
  have hdata : (frameString (y : Int) (q : Int)).data =
      'C' :: 'Y' :: (natChars y ++ 'Q' :: [digitChar q]) := by
    show 'C' :: 'Y' :: (charsOfInt (y : Int) ++ 'Q' :: charsOfInt (q : Int)) = _
    rw [charsOfInt_ofNat, charsOfInt_ofNat, hqchars]
  unfold parseCY
  rw [hdata]
  have hstart : startsWithCY ('C' :: 'Y' :: (natChars y ++ 'Q' :: [digitChar q])) = true := by
    simp [startsWithCY]
  have hasq : hasQc ('C' :: 'Y' :: (natChars y ++ 'Q' :: [digitChar q])) = true := by
    simp [hasQc]
  rw [if_pos (by rw [hstart, hasq]; rfl)]
  have hslice : ((('C' :: 'Y' :: (natChars y ++ 'Q' :: [digitChar q])).drop 2).take 4) =
      natChars y := by
    simp only [List.drop_succ_cons, List.drop_zero]
    rw [← hylen, List.take_left]
  have hlast : ('C' :: 'Y' :: (natChars y ++ 'Q' :: [digitChar q])).getLast? =
      some (digitChar q) := by
    rw [show 'C' :: 'Y' :: (natChars y ++ 'Q' :: [digitChar q]) =
      ('C' :: 'Y' :: (natChars y ++ ['Q'])) ++ [digitChar q] by simp]
    exact List.getLast?_concat _
  have hql : pyInt [digitChar q] = some (q : Int) := by
    rw [← hqchars, pyInt_natChars]
  rw [hslice, hlast]
  simp only [pyInt_natChars, hql]

/-! ### The quarterly-series builder and the period comparator -/

/-- The four fetched metrics, in the iteration order of the source's tag
dictionaries (`TAGS` in src/financialData.py; `full_tags` = revenue followed
by `common_tags` in src/test.py and src/testingClaude.py — same order). -/
def baseMetrics : List Metric := [.revenue, .grossProfit, .netIncome, .cashFlow]

namespace FinancialData

/-- `parse_data` (src/financialData.py lines 33–56): keep entries that have an
`end` date and a non-empty frame containing `"Q"`, then sort by date
descending.  Note the filter is only "contains `Q`", not the quarterly
pattern `CY<year>Q<1-4>`. -/
def parse_data (entries : List RawEntry) : List Record :=
  sortDescBy (fun r => r.date)
    (entries.filterMap fun e =>
      if e.hasEnd && !(e.frame == "") && hasQ e.frame then
        some ⟨e.endDate, e.val, e.form, e.fy, e.fp, e.frame⟩
      else none)

/-- Rows of the first non-empty metric stream (the `DataFrame` that seeds
`all_data`): one row per record, with only that metric's column filled. -/
def streamRows (m : Metric) (recs : List Record) : List Row :=
  recs.map fun rec => ⟨rec.date, rec.frame, setVal emptyVals m (.num rec.val)⟩

/-- `pd.merge(all_data, df_subset, on=["date","frame"], how="outer")`:
every left row is paired with each right record sharing its `(date, frame)`
key (an unmatched left row keeps NaN in the new column), and right records
matching no left row are appended as new rows.  Row order is normalised by
the subsequent date sort in the builder. -/
def outerMerge (left : List Row) (m : Metric) (recs : List Record) : List Row :=
  (left.flatMap fun l =>
    match recs.filter (fun rec => rec.date == l.date && rec.frame == l.frame) with
    | [] => [l]
    | r :: rs => (r :: rs).map fun rec => ⟨l.date, l.frame, setVal l.vals m (.num rec.val)⟩)
  ++ ((recs.filter fun rec =>
        left.all fun l => !(rec.date == l.date && rec.frame == l.frame)).map
      fun rec => ⟨rec.date, rec.frame, setVal emptyVals m (.num rec.val)⟩)

/-- One step of the builder's fetch-and-merge loop, for one metric.  The
input `fetched` maps each metric to `none` when its fetch failed
(`fetch_sec_data` returned `None`) and to its raw `units.USD` entries
otherwise.  The accumulator carries the merged rows (`none` while
`all_data` is still the empty DataFrame) and the list of metric columns
present so far. -/
def mergeStep (fetched : Metric → Option (List RawEntry))
    (acc : Option (List Row) × List Metric) (m : Metric) :
    Option (List Row) × List Metric :=
  match fetched m with
  | none => acc
  | some entries =>
    let recs := parse_data entries
    if recs.isEmpty then acc
    else
      match acc with
      | (none, cols) => (some (streamRows m recs), cols ++ [m])
      | (some rows, cols) => (some (outerMerge rows m recs), cols ++ [m])

/-- The merged `all_data` after the fetch loop of `build_financial_table`
(src/financialData.py lines 61–75), with the list of metric columns present. -/
def mergedData (fetched : Metric → Option (List RawEntry)) :
    Option (List Row) × List Metric :=
  baseMetrics.foldl (mergeStep fetched) (none, [])

/-- The rows surviving the required-metric drop
(`dropna(subset=["Revenue", "Gross Profit"])`, line 87), after the date sort:
the candidates for table rows before frame deduplication. -/
def candidateRows (fetched : Metric → Option (List RawEntry)) : List Row :=
  match mergedData fetched with
  | (none, _) => []
  | (some rows, _) =>
    (sortDescBy (fun r => r.date) rows).filter fun r =>
      notna (getVal r.vals .revenue) && notna (getVal r.vals .grossProfit)

/-- Worker for `drop_duplicates`: drop rows whose frame was already seen. -/
def dedupByFrameAux (seen : List String) : List Row → List Row
  | [] => []
  | r :: rs =>
    if seen.contains r.frame then dedupByFrameAux seen rs
    else r :: dedupByFrameAux (r.frame :: seen) rs

/-- `drop_duplicates(subset=["Quarter"], keep="first")`: keep the first row
of each frame label, preserving order. -/
def dedupByFrame (l : List Row) : List Row := dedupByFrameAux [] l

/-- The Gross Margin assignment (line 93):
`all_data["Gross Margin"] = all_data["Gross Profit"] / all_data["Revenue"]`. -/
def addGrossMargin (r : Row) : Row :=
  ⟨r.date, r.frame,
    setVal r.vals .grossMargin (pdiv (getVal r.vals .grossProfit) (getVal r.vals .revenue))⟩

/-- `build_financial_table` (src/financialData.py lines 60–96).  The result is
`Except` because `dropna` on the `Revenue`/`Gross Profit` columns raises a
`KeyError` when a column is entirely absent (its fetch produced no usable
facts while some other metric's did). -/
def build_financial_table (fetched : Metric → Option (List RawEntry)) :
    Except String (List Row) :=
  match mergedData fetched with
  | (none, _) => .ok []
  | (some _, cols) =>
    if cols.contains Metric.revenue && cols.contains Metric.grossProfit then
      .ok ((dedupByFrame (candidateRows fetched)).map addGrossMargin)
    else .error "KeyError"

/-- One QoQ/YoY cell: the string `"N/A"` the source initialises the series
with, or an assigned float value. -/
inductive Delta where
  | na : Delta
  | val : PVal → Delta
deriving DecidableEq

/-- The per-metric QoQ (or YoY) series. -/
structure DSer where
  revenue : Delta
  grossProfit : Delta
  netIncome : Delta
  cashFlow : Delta
  grossMargin : Delta
deriving DecidableEq

/-- Read one metric's delta. -/
def getD (d : DSer) : Metric → Delta
  | .revenue => d.revenue
  | .grossProfit => d.grossProfit
  | .netIncome => d.netIncome
  | .cashFlow => d.cashFlow
  | .grossMargin => d.grossMargin

/-- The all-`"N/A"` series (`pd.Series("N/A", index=metric_cols)`). -/
def allNA : DSer := ⟨.na, .na, .na, .na, .na⟩

/-- The loop body of lines 135–137 / 145–147 for one metric: assign
`(current - baseline) / baseline` only when the current and baseline values
are non-NaN and the baseline is nonzero; otherwise the cell keeps `"N/A"`. -/
def deltaFor (cur base : Vals) (m : Metric) : Delta :=
  if notna (getVal cur m) && notna (getVal base m) && !isZero (getVal base m) then
    .val (pdiv (psub (getVal cur m) (getVal base m)) (getVal base m))
  else .na

/-- The whole QoQ (or YoY) series against one baseline row. -/
def deltasFor (cur base : Vals) : DSer :=
  ⟨deltaFor cur base .revenue, deltaFor cur base .grossProfit,
   deltaFor cur base .netIncome, deltaFor cur base .cashFlow,
   deltaFor cur base .grossMargin⟩

/-- `compute_changes` (src/financialData.py lines 100–153): look up the
selected quarter (raising `ValueError` when absent — modelled by
`Except.error`), parse the frame label, and compute QoQ/YoY deltas against
the previous-quarter and previous-year rows when they exist.  The model
fixes the case where the table has all five metric columns, which is what
the builder produces (`current_row[metric_cols]` would raise on other
frames of input). -/
def compute_changes (df : List Row) (selected_quarter : String) :
    Except String (Vals × DSer × DSer) :=
  match df.find? (fun r => r.frame == selected_quarter) with
  | none => .error ("Selected quarter " ++ selected_quarter ++ " not found in data.")
  | some row =>
    let current := row.vals
    match parseCY selected_quarter with
    | none => .ok (current, allNA, allNA)
    | some (year, quarter) =>
      let qoq :=
        match df.find? (fun r => r.frame == prev_quarter_frame year quarter) with
        | none => allNA
        | some b => deltasFor current b.vals
      let yoy :=
        match df.find? (fun r => r.frame == prev_year_frame year quarter) with
        | none => allNA
        | some b => deltasFor current b.vals
      .ok (current, qoq, yoy)

end FinancialData

namespace TestingClaude

/-- `build_financial_table` (src/testingClaude.py lines 170–204).  It shares
the fetch-and-merge loop with src/financialData.py, but drops rows on
`Revenue` only, and handles `Gross Profit` conditionally: only when the
`Gross Profit` column exists in the merged data does it drop rows missing
it and derive `Gross Margin`; deduplication on `Quarter` comes last. -/
def build_financial_table (fetched : Metric → Option (List RawEntry)) :
    Except String (List Row) :=
  match FinancialData.mergedData fetched with
  | (none, _) => .ok []
  | (some rows, cols) =>
    if cols.contains Metric.revenue then
      let sorted := sortDescBy (fun r => r.date) rows
      let kept := sorted.filter fun r => notna (getVal r.vals .revenue)
      let kept2 :=
        if cols.contains Metric.grossProfit then
          (kept.filter fun r => notna (getVal r.vals .grossProfit)).map
            FinancialData.addGrossMargin
        else kept
      .ok (FinancialData.dedupByFrame kept2)
    else .error "KeyError"

/-- The static per-company revenue-tag preference mapping
(`company_revenue_preferences`, src/testingClaude.py lines 17–27). -/
def company_revenue_preferences : List (String × List String) :=
  [("Intel", ["RevenueFromContractWithCustomerExcludingAssessedTax"]),
   ("Texas Instruments",
     ["RevenueFromContractWithCustomerExcludingAssessedTax", "SalesRevenueNet"]),
   ("Apple", ["SalesRevenueNet"]),
   ("Microsoft", ["SalesRevenueNet"]),
   ("Google", ["Revenues"]),
   ("Alphabet", ["Revenues"]),
   ("Amazon", ["SalesRevenueNet"]),
   ("Tesla", ["SalesRevenueNet"]),
   ("NVIDIA", ["RevenueFromContractWithCustomerExcludingAssessedTax"])]

/-- The global fallback revenue tags, in priority order
(`default_revenue_tags`, src/testingClaude.py lines 30–36). -/
def default_revenue_tags : List String :=
  ["RevenueFromContractWithCustomerExcludingAssessedTax",
   "SalesRevenueNet",
   "Revenues",
   "SalesRevenueGoodsNet",
   "SalesRevenueServicesNet"]

/-- `get_revenue_tag_for_company` (src/testingClaude.py lines 94–112).
The liveness probe `test_tag_availability` is a network call returning a
boolean (`False` on non-200 status or any exception); it is modelled by the
oracle `probe`.  Preference tags are tried in order, then the global
fallback list, then the unconditional final default `"SalesRevenueNet"`. -/
def get_revenue_tag_for_company (company_name : String) (probe : String → Bool) :
    String :=
  let fromPrefs :=
    match company_revenue_preferences.lookup company_name with
    | some tags => tags.find? probe
    | none => none
  match fromPrefs with
  | some tag => tag
  | none =>
    match default_revenue_tags.find? probe with
    | some tag => tag
    | none => "SalesRevenueNet"

end TestingClaude

/-! ### Spec-side definitions (for refinement comparison only) -/

/-- Modelled from the spec's words, NOT from the source: a frame label of
the quarterly form `CY<year>Q<1-4>` ("keep only frames matching
`CY<year>Q<1-4>`", spec §4.2 step 2).  Used to compare the spec's frame
filter and parse contract with the source's laxer tests. -/
def isQuarterFrame (s : String) : Bool :=
  match s.data with
  | 'C' :: 'Y' :: rest =>
    let ys := rest.takeWhile isDig
    !ys.isEmpty &&
      (match rest.drop ys.length with
       | ['Q', c] => c == '1' || c == '2' || c == '3' || c == '4'
       | _ => false)
  | _ => false

/-- Flatten a row into a tuple of its fields and metric cells, to state
concrete table contents decidably. -/
def rowView (r : Row) : ℕ × String × PVal × PVal × PVal × PVal × PVal :=
  (r.date, r.frame, r.vals.revenue, r.vals.grossProfit, r.vals.netIncome,
   r.vals.cashFlow, r.vals.grossMargin)

/-! ### General lemmas about the embedded operations -/

theorem notna_eq_false_iff (v : PVal) : notna v = false ↔ v = .na := by
  cases v <;> simp [notna]

theorem notna_eq_true_iff (v : PVal) : notna v = true ↔ v ≠ .na := by
  cases v <;> simp [notna]

/-- `List.find?` either returns the first element satisfying the predicate
(everything before it failing), or `none` with nothing satisfying it. -/
theorem find?_first_or_none (p : α → Bool) :
    ∀ l : List α,
      (∃ pre x post, l = pre ++ x :: post ∧ (∀ y ∈ pre, p y = false) ∧
        p x = true ∧ l.find? p = some x) ∨
      ((∀ x ∈ l, p x = false) ∧ l.find? p = none) := by
  intro l
  induction l with
  | nil => exact Or.inr ⟨by simp, rfl⟩
  | cons a l ih =>
    cases hpa : p a with
    | true =>
      exact Or.inl ⟨[], a, l, by simp, by simp, hpa, List.find?_cons_of_pos _ hpa⟩
    | false =>
      rcases ih with ⟨pre, x, post, hl, hpre, hx, hfind⟩ | ⟨hall, hfind⟩
      · refine Or.inl ⟨a :: pre, x, post, by simp [hl], ?_, hx, ?_⟩
        · intro y hy
          rcases List.mem_cons.mp hy with rfl | hy
          · exact hpa
          · exact hpre y hy
        · rw [List.find?_cons_of_neg _ (by simp [hpa]), hfind]
      · refine Or.inr ⟨?_, ?_⟩
        · intro x hx
          rcases List.mem_cons.mp hx with rfl | hx
          · exact hpa
          · exact hall x hx
        · rw [List.find?_cons_of_neg _ (by simp [hpa]), hfind]

namespace FinancialData

theorem mem_dedupByFrameAux_subset :
    ∀ (l : List Row) (seen : List String) (r : Row),
      r ∈ dedupByFrameAux seen l → r ∈ l := by
  intro l
  induction l with
  | nil => intro seen r h; exact absurd h (by simp [dedupByFrameAux])
  | cons x xs ih =>
    intro seen r h
    unfold dedupByFrameAux at h
    by_cases hc : seen.contains x.frame
    · rw [if_pos hc] at h
      exact List.mem_cons_of_mem _ (ih seen r h)
    · rw [if_neg hc] at h
      rcases List.mem_cons.mp h with rfl | h
      · exact List.mem_cons_self _ _
      · exact List.mem_cons_of_mem _ (ih _ r h)

theorem mem_dedupByFrameAux_not_seen :
    ∀ (l : List Row) (seen : List String) (r : Row),
      r ∈ dedupByFrameAux seen l → seen.contains r.frame = false := by
  intro l
  induction l with
  | nil => intro seen r h; exact absurd h (by simp [dedupByFrameAux])
  | cons x xs ih =>
    intro seen r h
    unfold dedupByFrameAux at h
    by_cases hc : seen.contains x.frame
    · rw [if_pos hc] at h
      exact ih seen r h
    · rw [if_neg hc] at h
      rcases List.mem_cons.mp h with rfl | h
      · exact Bool.eq_false_iff.mpr hc
      · have := ih _ r h
        simp only [List.contains_cons, Bool.or_eq_false_iff] at this
        exact this.2

theorem pairwise_dedupByFrameAux :
    ∀ (l : List Row) (seen : List String),
      (dedupByFrameAux seen l).Pairwise (fun a b => a.frame ≠ b.frame) := by
  intro l
  induction l with
  | nil => intro seen; simp [dedupByFrameAux]
  | cons x xs ih =>
    intro seen
    unfold dedupByFrameAux
    by_cases hc : seen.contains x.frame
    · rw [if_pos hc]; exact ih seen
    · rw [if_neg hc]
      refine List.pairwise_cons.mpr ⟨?_, ih _⟩
      intro r hr
      have := mem_dedupByFrameAux_not_seen xs (x.frame :: seen) r hr
      simp only [List.contains_cons, Bool.or_eq_false_iff, beq_eq_false_iff_ne] at this
      exact fun hxr => this.1 (by rw [hxr])

/-- In a list sorted by date descending, the row `drop_duplicates` keeps for a
frame has the maximal date among the rows carrying that frame. -/
theorem dedupByFrameAux_max_date :
    ∀ (l : List Row) (seen : List String),
      l.Pairwise (fun a b => b.date ≤ a.date) →
      ∀ r, r ∈ dedupByFrameAux seen l →
      ∀ r', r' ∈ l → r'.frame = r.frame → r'.date ≤ r.date := by
  intro l
  induction l with
  | nil => intro seen _ r h; exact absurd h (by simp [dedupByFrameAux])
  | cons x xs ih =>
    intro seen hsort r hr r' hr' hframe
    rcases List.pairwise_cons.mp hsort with ⟨hx, hxs⟩
    unfold dedupByFrameAux at hr
    by_cases hc : seen.contains x.frame
    · rw [if_pos hc] at hr
      rcases List.mem_cons.mp hr' with rfl | hr'
      · have := mem_dedupByFrameAux_not_seen xs seen r hr
        rw [← hframe] at this
        rw [hc] at this
        cases this
      · exact ih seen hxs r hr r' hr' hframe
    · rw [if_neg hc] at hr
      rcases List.mem_cons.mp hr with rfl | hr
      · rcases List.mem_cons.mp hr' with rfl | hr'
        · exact le_rfl
        · exact hx r' hr'
      · have hne : r.frame ≠ x.frame := by
          have := mem_dedupByFrameAux_not_seen xs (x.frame :: seen) r hr
          simp only [List.contains_cons, Bool.or_eq_false_iff, beq_eq_false_iff_ne] at this
          exact this.1
        rcases List.mem_cons.mp hr' with rfl | hr'
        · exact absurd hframe (fun h => hne h.symm)
        · exact ih _ hxs r hr r' hr' hframe

end FinancialData

/-- A cell that is either missing or a finite number (what the merge can put
into the four fetched columns). -/
def NumNa (v : PVal) : Prop := v = .na ∨ ∃ a : ℚ, v = .num a

/-- Invariant of every row of the merged `all_data` before the Gross Margin
step: the frame passed the `parse_data` filter, the four fetched columns are
missing-or-numeric, and the Gross Margin column is not yet set. -/
def RowInv (r : Row) : Prop :=
  r.frame ≠ "" ∧ hasQ r.frame = true ∧
    NumNa r.vals.revenue ∧ NumNa r.vals.grossProfit ∧
    NumNa r.vals.netIncome ∧ NumNa r.vals.cashFlow ∧
    r.vals.grossMargin = .na

namespace FinancialData

theorem parse_data_frame {es : List RawEntry} {rec : Record}
    (h : rec ∈ parse_data es) : rec.frame ≠ "" ∧ hasQ rec.frame = true := by
  unfold parse_data at h
  rw [mem_sortDescBy] at h
  rcases List.mem_filterMap.mp h with ⟨e, _, he⟩
  by_cases hc : e.hasEnd && !(e.frame == "") && hasQ e.frame
  · rw [if_pos hc] at he
    cases he
    simp only [Bool.and_eq_true, Bool.not_eq_true'] at hc
    exact ⟨by simpa using hc.1.2, hc.2⟩
  · rw [if_neg hc] at he
    cases he

theorem numNa_setVal {v : Vals} {m : Metric} {a : ℚ}
    (h : NumNa v.revenue ∧ NumNa v.grossProfit ∧ NumNa v.netIncome ∧
      NumNa v.cashFlow ∧ v.grossMargin = .na)
    (hm : m ≠ .grossMargin) :
    NumNa (setVal v m (.num a)).revenue ∧ NumNa (setVal v m (.num a)).grossProfit ∧
      NumNa (setVal v m (.num a)).netIncome ∧ NumNa (setVal v m (.num a)).cashFlow ∧
      (setVal v m (.num a)).grossMargin = .na := by
  obtain ⟨h1, h2, h3, h4, h5⟩ := h
  cases m with
  | revenue => exact ⟨Or.inr ⟨a, rfl⟩, h2, h3, h4, h5⟩
  | grossProfit => exact ⟨h1, Or.inr ⟨a, rfl⟩, h3, h4, h5⟩
  | netIncome => exact ⟨h1, h2, Or.inr ⟨a, rfl⟩, h4, h5⟩
  | cashFlow => exact ⟨h1, h2, h3, Or.inr ⟨a, rfl⟩, h5⟩
  | grossMargin => exact absurd rfl hm

theorem emptyVals_numNa :
    NumNa emptyVals.revenue ∧ NumNa emptyVals.grossProfit ∧
      NumNa emptyVals.netIncome ∧ NumNa emptyVals.cashFlow ∧
      emptyVals.grossMargin = .na :=
  ⟨Or.inl rfl, Or.inl rfl, Or.inl rfl, Or.inl rfl, rfl⟩

theorem streamRows_inv {m : Metric} {recs : List Record} {es : List RawEntry}
    (hrecs : recs = parse_data es) (hm : m ≠ .grossMargin) :
    ∀ r ∈ streamRows m recs, RowInv r := by
  intro r hr
  rcases List.mem_map.mp hr with ⟨rec, hrec, rfl⟩
  have hframe := parse_data_frame (hrecs ▸ hrec)
  exact ⟨hframe.1, hframe.2, (numNa_setVal emptyVals_numNa hm).1,
    (numNa_setVal emptyVals_numNa hm).2.1, (numNa_setVal emptyVals_numNa hm).2.2.1,
    (numNa_setVal emptyVals_numNa hm).2.2.2.1, (numNa_setVal emptyVals_numNa hm).2.2.2.2⟩

theorem outerMerge_inv {left : List Row} {m : Metric} {recs : List Record}
    {es : List RawEntry} (hrecs : recs = parse_data es) (hm : m ≠ .grossMargin)
    (hleft : ∀ l ∈ left, RowInv l) :
    ∀ r ∈ outerMerge left m recs, RowInv r := by
  intro r hr
  unfold outerMerge at hr
  rcases List.mem_append.mp hr with hr | hr
  · rcases List.mem_flatMap.mp hr with ⟨l, hl, hin⟩
    have hlinv := hleft l hl
    cases hmatch : recs.filter (fun rec => rec.date == l.date && rec.frame == l.frame) with
    | nil =>
      rw [hmatch] at hin
      rcases List.mem_singleton.mp hin with rfl
      exact hlinv
    | cons r0 rs0 =>
      rw [hmatch] at hin
      rcases List.mem_map.mp hin with ⟨rec, _, rfl⟩
      obtain ⟨hf1, hf2, hnn⟩ := hlinv
      exact ⟨hf1, hf2, numNa_setVal hnn hm⟩
  · rcases List.mem_map.mp hr with ⟨rec, hrec, rfl⟩
    have hrecmem : rec ∈ recs := List.mem_of_mem_filter hrec
    have hframe := parse_data_frame (hrecs ▸ hrecmem)
    exact ⟨hframe.1, hframe.2, numNa_setVal emptyVals_numNa hm⟩

/-- Accumulator invariant for the fetch-and-merge loop. -/
def InvAcc (acc : Option (List Row) × List Metric) : Prop :=
  ∀ rows, acc.1 = some rows → ∀ r ∈ rows, RowInv r

theorem mergeStep_inv {fetched : Metric → Option (List RawEntry)}
    {acc : Option (List Row) × List Metric} {m : Metric}
    (hm : m ≠ .grossMargin) (hacc : InvAcc acc) :
    InvAcc (mergeStep fetched acc m) := by
  unfold mergeStep
  cases hf : fetched m with
  | none => exact hacc
  | some entries =>
    by_cases he : (parse_data entries).isEmpty
    · simp only [he, if_true]
      exact hacc
    · simp only [he, Bool.false_eq_true, if_false]
      obtain ⟨orows, cols⟩ := acc
      cases orows with
      | none =>
        intro rows hrows r hr
        cases hrows
        exact streamRows_inv rfl hm r hr
      | some rows0 =>
        intro rows hrows r hr
        cases hrows
        exact outerMerge_inv rfl hm (fun l hl => hacc rows0 rfl l hl) r hr

theorem mergedData_inv (fetched : Metric → Option (List RawEntry)) :
    InvAcc (mergedData fetched) := by
  unfold mergedData baseMetrics
  simp only [List.foldl_cons, List.foldl_nil]
  refine mergeStep_inv (by simp) (mergeStep_inv (by simp) (mergeStep_inv (by simp)
    (mergeStep_inv (by simp) ?_)))
  intro rows hrows
  cases hrows

end FinancialData

namespace FinancialData

theorem mem_build {fetched : Metric → Option (List RawEntry)} {tbl : List Row} {r : Row}
    (h : build_financial_table fetched = .ok tbl) (hr : r ∈ tbl) :
    ∃ r0, r0 ∈ dedupByFrame (candidateRows fetched) ∧ r = addGrossMargin r0 := by
  unfold build_financial_table at h
  rcases hmd : mergedData fetched with ⟨orows, cols⟩
  cases orows with
  | none =>
    simp only [hmd] at h
    cases h
    cases hr
  | some rows =>
    simp only [hmd] at h
    by_cases hc : cols.contains Metric.revenue && cols.contains Metric.grossProfit
    · rw [if_pos hc] at h
      cases h
      rcases List.mem_map.mp hr with ⟨r0, hr0, rfl⟩
      exact ⟨r0, hr0, rfl⟩
    · rw [if_neg hc] at h
      cases h

theorem mem_candidateRows {fetched : Metric → Option (List RawEntry)} {r : Row}
    (h : r ∈ candidateRows fetched) :
    RowInv r ∧ notna r.vals.revenue = true ∧ notna r.vals.grossProfit = true := by
  unfold candidateRows at h
  rcases hmd : mergedData fetched with ⟨orows, cols⟩
  rw [hmd] at h
  cases orows with
  | none => cases h
  | some rows =>
    rcases List.mem_filter.mp h with ⟨hmem, hcond⟩
    simp only [getVal, Bool.and_eq_true] at hcond
    have hinv : RowInv r := by
      have := mergedData_inv fetched rows
      rw [hmd] at this
      exact this rfl r ((mem_sortDescBy _ r rows).mp hmem)
    exact ⟨hinv, hcond.1, hcond.2⟩

theorem candidateRows_sorted (fetched : Metric → Option (List RawEntry)) :
    (candidateRows fetched).Pairwise (fun a b => b.date ≤ a.date) := by
  unfold candidateRows
  rcases hmd : mergedData fetched with ⟨orows, cols⟩
  cases orows with
  | none => simp
  | some rows =>
    exact List.Pairwise.sublist (List.filter_sublist _) (pairwise_sortDescBy _ rows)

theorem addGrossMargin_frame (r : Row) : (addGrossMargin r).frame = r.frame := rfl

theorem addGrossMargin_date (r : Row) : (addGrossMargin r).date = r.date := rfl

theorem addGrossMargin_revenue (r : Row) :
    (addGrossMargin r).vals.revenue = r.vals.revenue := by
  obtain ⟨d, f, v⟩ := r
  obtain ⟨a1, a2, a3, a4, a5⟩ := v
  rfl

theorem addGrossMargin_grossProfit (r : Row) :
    (addGrossMargin r).vals.grossProfit = r.vals.grossProfit := by
  obtain ⟨d, f, v⟩ := r
  obtain ⟨a1, a2, a3, a4, a5⟩ := v
  rfl

theorem addGrossMargin_netIncome (r : Row) :
    (addGrossMargin r).vals.netIncome = r.vals.netIncome := by
  obtain ⟨d, f, v⟩ := r
  obtain ⟨a1, a2, a3, a4, a5⟩ := v
  rfl

theorem addGrossMargin_cashFlow (r : Row) :
    (addGrossMargin r).vals.cashFlow = r.vals.cashFlow := by
  obtain ⟨d, f, v⟩ := r
  obtain ⟨a1, a2, a3, a4, a5⟩ := v
  rfl

theorem addGrossMargin_grossMargin (r : Row) :
    (addGrossMargin r).vals.grossMargin =
      pdiv r.vals.grossProfit r.vals.revenue := by
  obtain ⟨d, f, v⟩ := r
  obtain ⟨a1, a2, a3, a4, a5⟩ := v
  rfl

theorem getD_deltasFor (c v : Vals) (m : Metric) :
    getD (deltasFor c v) m = deltaFor c v m := by
  cases m <;> rfl

theorem getD_allNA (m : Metric) : getD allNA m = .na := by
  cases m <;> rfl

theorem compute_changes_of_find_none {df : List Row} {sel : String}
    (h : df.find? (fun r => r.frame == sel) = none) :
    compute_changes df sel =
      .error ("Selected quarter " ++ sel ++ " not found in data.") := by
  simp only [compute_changes, h]

theorem compute_changes_of_parse_none {df : List Row} {sel : String} {row : Row}
    (hrow : df.find? (fun r => r.frame == sel) = some row)
    (hp : parseCY sel = none) :
    compute_changes df sel = .ok (row.vals, allNA, allNA) := by
  simp only [compute_changes, hrow, hp]

theorem compute_changes_of_parse_some {df : List Row} {sel : String} {row : Row}
    {y q : Int} (hrow : df.find? (fun r => r.frame == sel) = some row)
    (hp : parseCY sel = some (y, q)) :
    compute_changes df sel = .ok (row.vals,
      (match df.find? (fun r => r.frame == prev_quarter_frame y q) with
       | none => allNA
       | some b => deltasFor row.vals b.vals),
      (match df.find? (fun r => r.frame == prev_year_frame y q) with
       | none => allNA
       | some b => deltasFor row.vals b.vals)) := by
  simp only [compute_changes, hrow, hp]

end FinancialData

namespace TestingClaude

theorem mem_build_tc {fetched : Metric → Option (List RawEntry)} {tbl : List Row} {r : Row}
    (h : build_financial_table fetched = .ok tbl) (hr : r ∈ tbl) :
    notna r.vals.revenue = true ∧
      ((FinancialData.mergedData fetched).2.contains Metric.grossProfit = true →
        notna r.vals.grossProfit = true) := by
  unfold build_financial_table at h
  rcases hmd : FinancialData.mergedData fetched with ⟨orows, cols⟩
  cases orows with
  | none =>
    simp only [hmd] at h
    cases h
    cases hr
  | some rows =>
    simp only [hmd] at h
    by_cases hrev : cols.contains Metric.revenue
    · rw [if_pos hrev] at h
      by_cases hgp : cols.contains Metric.grossProfit
      · simp only [hgp, if_true] at h
        cases h
        have hmem := FinancialData.mem_dedupByFrameAux_subset _ _ _ hr
        rcases List.mem_map.mp hmem with ⟨r0, hr0, rfl⟩
        rcases List.mem_filter.mp hr0 with ⟨hkept, hgpcond⟩
        rcases List.mem_filter.mp hkept with ⟨_, hrevcond⟩
        simp only [getVal] at hrevcond hgpcond
        refine ⟨?_, fun _ => ?_⟩
        · rw [FinancialData.addGrossMargin_revenue]
          exact hrevcond
        · rw [FinancialData.addGrossMargin_grossProfit]
          exact hgpcond
      · simp only [hgp, Bool.false_eq_true, if_false] at h
        cases h
        have hmem := FinancialData.mem_dedupByFrameAux_subset _ _ _ hr
        rcases List.mem_filter.mp hmem with ⟨_, hrevcond⟩
        simp only [getVal] at hrevcond
        exact ⟨hrevcond, fun hcontra => absurd hcontra hgp⟩
    · rw [if_neg hrev] at h
      cases h

end TestingClaude

/-! ### Concrete tables and inputs used by counterexamples and witnesses -/

/-- Table for the C4 counterexample: the selected quarter's Net Income is
missing while the baseline quarter has a nonzero Net Income. -/
def tblC4 : List Row :=
  [⟨10, "CY2020Q3", ⟨.num 2, .na, .na, .na, .na⟩⟩,
   ⟨5, "CY2020Q2", ⟨.num 1, .na, .num 50, .na, .na⟩⟩]

/-- The spec's own scenario table: `{CY2019Q3: Revenue=100}`,
`{CY2020Q3: Revenue=150}`, no other quarters. -/
def tblScen : List Row :=
  [⟨200, "CY2020Q3", ⟨.num 150, .na, .na, .na, .na⟩⟩,
   ⟨100, "CY2019Q3", ⟨.num 100, .na, .na, .na, .na⟩⟩]

/-- The comparator's full output on the scenario table for `CY2020Q3`. -/
def scenOut : Vals × FinancialData.DSer × FinancialData.DSer :=
  (⟨.num 150, .na, .na, .na, .na⟩, FinancialData.allNA,
   ⟨.val (.num ((150 - 100) / 100)), .na, .na, .na, .na⟩)

/-- Table for the C9 counterexample: frame `CY2020Q5` is not of the
`CY<year>Q<1-4>` form, yet the source's parse accepts it. -/
def tblC9 : List Row :=
  [⟨10, "CY2020Q5", ⟨.num 150, .na, .na, .na, .na⟩⟩,
   ⟨5, "CY2020Q4", ⟨.num 100, .na, .na, .na, .na⟩⟩]

/-- Table for the C9 witness: the frame `CY20Q3` is present but fails the
parse (`int("20Q3")` raises). -/
def tblC9w : List Row := [⟨1, "CY20Q3", ⟨.num 7, .na, .na, .na, .na⟩⟩]

/-- Table for the C10 witness: current Cash Flow missing, baseline Cash Flow
present and nonzero. -/
def tblC10 : List Row :=
  [⟨10, "CY2021Q2", ⟨.num 3, .na, .na, .na, .na⟩⟩,
   ⟨5, "CY2021Q1", ⟨.num 3, .na, .na, .num 8, .na⟩⟩]

/-- C1 input, Revenue fact filed later (restating the same frame). -/
def entryLaterFiled : RawEntry := ⟨true, 737, 100, "10-Q", "", "", "CY2020Q1", 900⟩

/-- C1 input, Revenue fact filed earlier but with the later period end. -/
def entryEarlierFiled : RawEntry := ⟨true, 744, 150, "10-K", "", "", "CY2020Q1", 800⟩

/-- C1 input: two Revenue facts and two Gross Profit facts share the frame
`CY2020Q1` with different `filed` dates. -/
def cex1fetched : Metric → Option (List RawEntry)
  | .revenue => some [entryLaterFiled, entryEarlierFiled]
  | .grossProfit => some [⟨true, 737, 40, "10-Q", "", "", "CY2020Q1", 900⟩,
                          ⟨true, 744, 60, "10-K", "", "", "CY2020Q1", 800⟩]
  | _ => none

/-- The table the builder produces from `cex1fetched`. -/
def cex1tbl : List Row :=
  [⟨744, "CY2020Q1", ⟨.num 150, .num 60, .na, .na, .num (60 / 150)⟩⟩]

/-- C2 input: facts whose frame is `CY2020Q1I` (an instant frame, not of the
quarterly `CY<year>Q<1-4>` form, but containing `"Q"`). -/
def cex2fetched : Metric → Option (List RawEntry)
  | .revenue => some [⟨true, 700, 100, "10-Q", "", "", "CY2020Q1I", 1⟩]
  | .grossProfit => some [⟨true, 700, 40, "10-Q", "", "", "CY2020Q1I", 1⟩]
  | _ => none

/-- The table the builder produces from `cex2fetched`. -/
def cex2tbl : List Row :=
  [⟨700, "CY2020Q1I", ⟨.num 100, .num 40, .na, .na, .num (40 / 100)⟩⟩]

/-- C3 input: Revenue disclosed as 0, Gross Profit 5, same frame. -/
def cex3fetched : Metric → Option (List RawEntry)
  | .revenue => some [⟨true, 700, 0, "10-Q", "", "", "CY2020Q1", 1⟩]
  | .grossProfit => some [⟨true, 700, 5, "10-Q", "", "", "CY2020Q1", 1⟩]
  | _ => none

/-- The table the builder produces from `cex3fetched`: Gross Margin is `inf`. -/
def cex3tbl : List Row :=
  [⟨700, "CY2020Q1", ⟨.num 0, .num 5, .na, .na, .inf⟩⟩]

/-- C6 input: the Gross Profit fetch succeeds but yields no usable facts, so
the merged data has no Gross Profit column. -/
def cex6fetched : Metric → Option (List RawEntry)
  | .revenue => some [⟨true, 700, 100, "10-Q", "", "", "CY2020Q1", 1⟩]
  | .grossProfit => some []
  | .netIncome => some [⟨true, 700, 10, "10-Q", "", "", "CY2020Q1", 1⟩]
  | _ => none

/-- The table `testingClaude`'s builder produces from `cex6fetched`: the row
is retained although its Gross Profit is missing. -/
def cex6tbl : List Row :=
  [⟨700, "CY2020Q1", ⟨.num 100, .na, .num 10, .na, .na⟩⟩]

/-! ### Claim theorems -/

/-- C5: for every selected frame `CY<y>Q<q>` (four-digit year, quarter 1–4),
the comparator parses back exactly `(y, q)`, its QoQ baseline frame is
`CY<y>Q<q-1>` for `q > 1` and `CY<y-1>Q4` for `q = 1`, and its YoY baseline
frame is `CY<y-1>Q<q>`. -/
theorem C5_baseline_frames (y q : ℕ) (hy1 : 1000 ≤ y) (hy2 : y ≤ 9999)
    (hq1 : 1 ≤ q) (hq2 : q ≤ 4) :
    parseCY (frameString (y : Int) (q : Int)) = some ((y : Int), (q : Int)) ∧
    prev_quarter_frame (y : Int) (q : Int) =
      (if 1 < q then frameString (y : Int) ((q : Int) - 1)
       else frameString ((y : Int) - 1) 4) ∧
    prev_year_frame (y : Int) (q : Int) = frameString ((y : Int) - 1) (q : Int) := by
  refine ⟨parseCY_frameString hy1 hy2 hq1 (by omega), ?_, rfl⟩
  unfold prev_quarter_frame
  by_cases h : 1 < q
  · rw [if_pos (by exact_mod_cast h : (q : Int) > 1), if_pos h]
  · rw [if_neg (by exact_mod_cast h : ¬(q : Int) > 1), if_neg h]

/-- C5 witness: the claim's own examples, via `C5_baseline_frames` at
`(2020, 3)` and `(2020, 1)`. -/
theorem C5_baseline_frames_witness :
    parseCY (frameString ((2020 : ℕ) : Int) ((3 : ℕ) : Int)) =
      some (((2020 : ℕ) : Int), ((3 : ℕ) : Int)) ∧
    prev_quarter_frame ((2020 : ℕ) : Int) ((3 : ℕ) : Int) = "CY2020Q2" ∧
    prev_year_frame ((2020 : ℕ) : Int) ((3 : ℕ) : Int) = "CY2019Q3" ∧
    prev_quarter_frame ((2020 : ℕ) : Int) ((1 : ℕ) : Int) = "CY2019Q4" := by
  have h3 := C5_baseline_frames 2020 3 (by norm_num) (by norm_num) (by norm_num) (by norm_num)
  have h1 := C5_baseline_frames 2020 1 (by norm_num) (by norm_num) (by norm_num) (by norm_num)
  refine ⟨h3.1, ?_, ?_, ?_⟩
  · rw [h3.2.1]; decide
  · rw [h3.2.2]; decide
  · rw [h1.2.1]; decide

/-- C7: for a company absent from the static preference mapping, the resolver
probes the global fallback tags in list order and returns the first that
probes true; when every probe fails it returns the last-resort default
`"SalesRevenueNet"` (never skipped), so it always returns some tag. -/
theorem C7_tag_fallback (company : String) (probe : String → Bool)
    (habs : TestingClaude.company_revenue_preferences.lookup company = none) :
    (∃ pre tag post, TestingClaude.default_revenue_tags = pre ++ tag :: post ∧
        (∀ t ∈ pre, probe t = false) ∧ probe tag = true ∧
        TestingClaude.get_revenue_tag_for_company company probe = tag) ∨
      ((∀ t ∈ TestingClaude.default_revenue_tags, probe t = false) ∧
        TestingClaude.get_revenue_tag_for_company company probe = "SalesRevenueNet") := by
  have hval : TestingClaude.get_revenue_tag_for_company company probe =
      (match TestingClaude.default_revenue_tags.find? probe with
       | some tag => tag
       | none => "SalesRevenueNet") := by
    unfold TestingClaude.get_revenue_tag_for_company
    simp only [habs]
  rcases find?_first_or_none probe TestingClaude.default_revenue_tags with
    ⟨pre, x, post, hl, hpre, hx, hfind⟩ | ⟨hall, hfind⟩
  · exact Or.inl ⟨pre, x, post, hl, hpre, hx, by rw [hval, hfind]⟩
  · exact Or.inr ⟨hall, by rw [hval, hfind]⟩

/-- C7 witness: a company absent from the mapping, with a probe accepting only
`"Revenues"` (the third fallback tag). -/
theorem C7_tag_fallback_witness :
    TestingClaude.company_revenue_preferences.lookup "Acme Corp" = none ∧
    ((∃ pre tag post, TestingClaude.default_revenue_tags = pre ++ tag :: post ∧
        (∀ t ∈ pre, (t == "Revenues") = false) ∧ (tag == "Revenues") = true ∧
        TestingClaude.get_revenue_tag_for_company "Acme Corp"
          (fun t => t == "Revenues") = tag) ∨
      ((∀ t ∈ TestingClaude.default_revenue_tags, (t == "Revenues") = false) ∧
        TestingClaude.get_revenue_tag_for_company "Acme Corp"
          (fun t => t == "Revenues") = "SalesRevenueNet")) :=
  ⟨by decide, C7_tag_fallback "Acme Corp" (fun t => t == "Revenues") (by decide)⟩

/-- C8: the comparator fails (with the `ValueError` of line 107) exactly when
no row of the table carries the selected frame; when the frame is present it
returns a result and raises nothing. -/
theorem C8_frame_not_found (df : List Row) (sel : String) :
    (∃ e, FinancialData.compute_changes df sel = .error e) ↔ ∀ r ∈ df, r.frame ≠ sel := by
  constructor
  · rintro ⟨e, he⟩ r hr hframe
    cases hfind : df.find? (fun r => r.frame == sel) with
    | none =>
      rw [List.find?_eq_none] at hfind
      exact hfind r hr (by simp [hframe])
    | some row =>
      cases hp : parseCY sel with
      | none =>
        rw [FinancialData.compute_changes_of_parse_none hfind hp] at he
        cases he
      | some yq =>
        obtain ⟨y, q⟩ := yq
        rw [FinancialData.compute_changes_of_parse_some hfind hp] at he
        cases he
  · intro h
    have hfind : df.find? (fun r => r.frame == sel) = none := by
      rw [List.find?_eq_none]
      intro r hr
      simp [h r hr]
    exact ⟨_, FinancialData.compute_changes_of_find_none hfind⟩

/-- C9 (amended): when the selected frame is the first match in the table and
the source's parse of it fails (no `"CY"` prefix, no `"Q"`, or non-numeric
year / final character), the comparator returns the current row's values with
both delta series entirely `"N/A"`, and no error.  (Frames such as
`CY2020Q5` parse successfully — see the counterexample — so the spec's
"not of the form `CY<year>Q<1-4>`" does not coincide with parse failure.) -/
theorem C9_degraded_on_parse_failure (df : List Row) (sel : String) (row : Row)
    (hfind : df.find? (fun r => r.frame == sel) = some row)
    (hp : parseCY sel = none) :
    FinancialData.compute_changes df sel =
      .ok (row.vals, FinancialData.allNA, FinancialData.allNA) ∧
    (∀ m, FinancialData.getD FinancialData.allNA m = .na) :=
  ⟨FinancialData.compute_changes_of_parse_none hfind hp,
   fun m => FinancialData.getD_allNA m⟩

/-- C9 witness: frame `CY20Q3` is present in the table but `int("20Q3")`
fails, so the result is the current values with all deltas `"N/A"`. -/
theorem C9_degraded_witness :
    tblC9w.find? (fun r => r.frame == "CY20Q3") =
      some ⟨1, "CY20Q3", ⟨.num 7, .na, .na, .na, .na⟩⟩ ∧
    parseCY "CY20Q3" = none ∧
    FinancialData.compute_changes tblC9w "CY20Q3" =
      .ok ((⟨1, "CY20Q3", ⟨.num 7, .na, .na, .na, .na⟩⟩ : Row).vals,
        FinancialData.allNA, FinancialData.allNA) :=
  ⟨by decide, by decide,
   (C9_degraded_on_parse_failure tblC9w "CY20Q3" _ (by decide) (by decide)).1⟩

/-- C9 counterexample: `CY2020Q5` is not of the form `CY<year>Q<1-4>`, is
present in the table, and yet the comparator computes a QoQ delta for it
(against `CY2020Q4`) instead of returning all-"N/A": the claim's premise
"does not parse as `CY<year>Q<quarter>` with quarter ∈ {1,2,3,4}" does not
imply degraded output in the source. -/
theorem C9_counterexample :
    isQuarterFrame "CY2020Q5" = false ∧
    parseCY "CY2020Q5" = some (2020, 5) ∧
    (FinancialData.compute_changes tblC9 "CY2020Q5").toOption.map
      (fun out => FinancialData.getD out.2.1 .revenue) =
      some (.val (.num ((150 - 100) / 100))) ∧
    FinancialData.Delta.val (.num ((150 - 100) / 100)) ≠ FinancialData.Delta.na ∧
    ((150 : ℚ) - 100) / 100 = 1 / 2 := by
  refine ⟨by decide, by decide, by rfl, ?_, by norm_num⟩
  intro h
  cases h

/-- C10: whenever the current (selected-frame) value of a metric is missing,
both the QoQ and the YoY delta of that metric are `"N/A"`, regardless of the
baseline rows — the guard `pd.notna(current[col])` of lines 136 and 146. -/
theorem C10_current_value_guard (df : List Row) (sel : String)
    (out : Vals × FinancialData.DSer × FinancialData.DSer) (m : Metric)
    (h : FinancialData.compute_changes df sel = .ok out)
    (hna : getVal out.1 m = .na) :
    FinancialData.getD out.2.1 m = .na ∧ FinancialData.getD out.2.2 m = .na := by
  cases hfind : df.find? (fun r => r.frame == sel) with
  | none =>
    rw [FinancialData.compute_changes_of_find_none hfind] at h
    cases h
  | some row =>
    cases hp : parseCY sel with
    | none =>
      rw [FinancialData.compute_changes_of_parse_none hfind hp] at h
      injection h with h2
      subst h2
      exact ⟨FinancialData.getD_allNA m, FinancialData.getD_allNA m⟩
    | some yq =>
      obtain ⟨y, q⟩ := yq
      rw [FinancialData.compute_changes_of_parse_some hfind hp] at h
      injection h with h2
      subst h2
      simp only at hna
      constructor
      · show FinancialData.getD
          (match df.find? (fun r => r.frame == prev_quarter_frame y q) with
           | none => FinancialData.allNA
           | some b => FinancialData.deltasFor row.vals b.vals) m = .na
        cases hq : df.find? (fun r => r.frame == prev_quarter_frame y q) with
        | none => exact FinancialData.getD_allNA m
        | some b =>
          rw [FinancialData.getD_deltasFor]
          unfold FinancialData.deltaFor
          rw [if_neg (by simp [hna, notna])]
      · show FinancialData.getD
          (match df.find? (fun r => r.frame == prev_year_frame y q) with
           | none => FinancialData.allNA
           | some b => FinancialData.deltasFor row.vals b.vals) m = .na
        cases hy : df.find? (fun r => r.frame == prev_year_frame y q) with
        | none => exact FinancialData.getD_allNA m
        | some b =>
          rw [FinancialData.getD_deltasFor]
          unfold FinancialData.deltaFor
          rw [if_neg (by simp [hna, notna])]

/-- C10 witness: current Cash Flow missing while the baseline quarter
`CY2021Q1` is present with Cash Flow 8 (non-null, nonzero): both deltas are
`"N/A"`. -/
theorem C10_current_value_guard_witness :
    ∃ out, FinancialData.compute_changes tblC10 "CY2021Q2" = .ok out ∧
      getVal out.1 .cashFlow = .na ∧
      tblC10.find? (fun r => r.frame == prev_quarter_frame 2021 2) =
        some ⟨5, "CY2021Q1", ⟨.num 3, .na, .na, .num 8, .na⟩⟩ ∧
      FinancialData.getD out.2.1 .cashFlow = .na ∧
      FinancialData.getD out.2.2 .cashFlow = .na := by
  refine ⟨_, rfl, rfl, by decide, ?_, ?_⟩
  · exact (C10_current_value_guard tblC10 "CY2021Q2" _ .cashFlow rfl rfl).1
  · exact (C10_current_value_guard tblC10 "CY2021Q2" _ .cashFlow rfl rfl).2

/-- One metric's delta cell of one delta series is `"N/A"` exactly when the
baseline row is absent, or the current value, or baseline value is missing,
or the baseline value is zero; otherwise it carries
`(current - baseline) / baseline`. -/
theorem deltaSeries_spec (df : List Row) (cur : Vals) (key : String) (m : Metric) :
    (FinancialData.getD
        (match df.find? (fun r => r.frame == key) with
         | none => FinancialData.allNA
         | some b => FinancialData.deltasFor cur b.vals) m = .na ↔
      ∀ b, df.find? (fun r => r.frame == key) = some b →
        getVal cur m = .na ∨ getVal b.vals m = .na ∨ isZero (getVal b.vals m) = true) ∧
    (∀ b, df.find? (fun r => r.frame == key) = some b →
      getVal cur m ≠ .na → getVal b.vals m ≠ .na → isZero (getVal b.vals m) = false →
      FinancialData.getD
        (match df.find? (fun r => r.frame == key) with
         | none => FinancialData.allNA
         | some b => FinancialData.deltasFor cur b.vals) m =
        .val (pdiv (psub (getVal cur m) (getVal b.vals m)) (getVal b.vals m))) := by
  cases hfind : df.find? (fun r => r.frame == key) with
  | none =>
    refine ⟨⟨fun _ b hb => Option.noConfusion hb, fun _ => FinancialData.getD_allNA m⟩,
      fun b hb => Option.noConfusion hb⟩
  | some b =>
    simp only [FinancialData.getD_deltasFor]
    constructor
    · unfold FinancialData.deltaFor
      by_cases hg : (notna (getVal cur m) && notna (getVal b.vals m) &&
          !isZero (getVal b.vals m)) = true
      · rw [if_pos hg]
        simp only [Bool.and_eq_true, Bool.not_eq_true', notna_eq_true_iff] at hg
        constructor
        · intro hv
          cases hv
        · intro hall
          rcases hall b rfl with h1 | h2 | h3
          · exact absurd h1 hg.1.1
          · exact absurd h2 hg.1.2
          · rw [hg.2] at h3
            cases h3
      · rw [if_neg hg]
        refine ⟨fun _ b' hb' => ?_, fun _ => rfl⟩
        obtain rfl : b' = b := by
          injection hb' with hb''
          exact hb''.symm
        have hg' := Bool.eq_false_iff.mpr hg
        simp only [Bool.and_eq_false_iff, notna_eq_false_iff] at hg'
        rcases hg' with (h1 | h2) | h3
        · exact Or.inl h1
        · exact Or.inr (Or.inl h2)
        · exact Or.inr (Or.inr (by simpa using h3))
    · intro b' hb' hc hb2 hz
      obtain rfl : b' = b := by
        injection hb' with hb''
        exact hb''.symm
      unfold FinancialData.deltaFor
      rw [if_pos]
      simp only [Bool.and_eq_true, Bool.not_eq_true', notna_eq_true_iff]
      exact ⟨⟨hc, hb2⟩, hz⟩

/-- C4 (amended): for any table, selected frame parsing as `(y, q)`, and
metric, the QoQ (resp. YoY) delta is `"N/A"` iff the baseline frame
`CY<y>Q<q-1>` (resp. `CY<y-1>Q<q>`) is absent from the table, **or the
current value of the metric is missing** (the guard the spec omits — see the
counterexample and C10), or the baseline value is missing, or the baseline
value equals zero; otherwise it equals `(current - baseline) / baseline` as a
signed ratio, not multiplied by 100. -/
theorem C4_delta_guard_and_formula (df : List Row) (sel : String)
    (out : Vals × FinancialData.DSer × FinancialData.DSer) (y q : Int) (m : Metric)
    (h : FinancialData.compute_changes df sel = .ok out)
    (hp : parseCY sel = some (y, q)) :
    (FinancialData.getD out.2.1 m = .na ↔
      ∀ b, df.find? (fun r => r.frame == prev_quarter_frame y q) = some b →
        getVal out.1 m = .na ∨ getVal b.vals m = .na ∨ isZero (getVal b.vals m) = true) ∧
    (∀ b, df.find? (fun r => r.frame == prev_quarter_frame y q) = some b →
      getVal out.1 m ≠ .na → getVal b.vals m ≠ .na → isZero (getVal b.vals m) = false →
      FinancialData.getD out.2.1 m =
        .val (pdiv (psub (getVal out.1 m) (getVal b.vals m)) (getVal b.vals m))) ∧
    (FinancialData.getD out.2.2 m = .na ↔
      ∀ b, df.find? (fun r => r.frame == prev_year_frame y q) = some b →
        getVal out.1 m = .na ∨ getVal b.vals m = .na ∨ isZero (getVal b.vals m) = true) ∧
    (∀ b, df.find? (fun r => r.frame == prev_year_frame y q) = some b →
      getVal out.1 m ≠ .na → getVal b.vals m ≠ .na → isZero (getVal b.vals m) = false →
      FinancialData.getD out.2.2 m =
        .val (pdiv (psub (getVal out.1 m) (getVal b.vals m)) (getVal b.vals m))) := by
  cases hfind : df.find? (fun r => r.frame == sel) with
  | none =>
    rw [FinancialData.compute_changes_of_find_none hfind] at h
    cases h
  | some row =>
    rw [FinancialData.compute_changes_of_parse_some hfind hp] at h
    injection h with h2
    subst h2
    refine ⟨(deltaSeries_spec df row.vals (prev_quarter_frame y q) m).1,
      (deltaSeries_spec df row.vals (prev_quarter_frame y q) m).2,
      (deltaSeries_spec df row.vals (prev_year_frame y q) m).1,
      (deltaSeries_spec df row.vals (prev_year_frame y q) m).2⟩

/-- C4 counterexample: on `tblC4`, selecting `CY2020Q3`, the baseline
`CY2020Q2` is present with Net Income 50 — non-null and nonzero — yet the QoQ
Net Income delta is `"N/A"` (because the current Net Income is missing), so
the claim's baseline-only guard list is not exhaustive. -/
theorem C4_counterexample :
    parseCY "CY2020Q3" = some (2020, 3) ∧
    tblC4.find? (fun r => r.frame == prev_quarter_frame 2020 3) =
      some ⟨5, "CY2020Q2", ⟨.num 1, .na, .num 50, .na, .na⟩⟩ ∧
    getVal (⟨.num 1, .na, .num 50, .na, .na⟩ : Vals) .netIncome = .num 50 ∧
    isZero (PVal.num 50) = false ∧
    (FinancialData.compute_changes tblC4 "CY2020Q3").toOption.map
      (fun out => FinancialData.getD out.2.1 .netIncome) = some .na := by
  exact ⟨by decide, by decide, by decide, by decide, by decide⟩

/-- C4 witness: the spec's scenario — table `{CY2019Q3: Revenue=100,
CY2020Q3: Revenue=150}`, selecting `CY2020Q3` gives current Revenue 150, QoQ
Revenue `"N/A"` (baseline `CY2020Q2` missing), YoY Revenue
`(150-100)/100 = 0.5` — together with the amended guard applied there. -/
theorem C4_delta_guard_witness :
    FinancialData.compute_changes tblScen "CY2020Q3" = .ok scenOut ∧
    scenOut.1.revenue = .num 150 ∧
    FinancialData.getD scenOut.2.1 .revenue = .na ∧
    FinancialData.getD scenOut.2.2 .revenue = .val (.num ((150 - 100) / 100)) ∧
    ((150 : ℚ) - 100) / 100 = 1 / 2 ∧
    ((FinancialData.getD scenOut.2.1 .revenue = .na ↔
      ∀ b, tblScen.find? (fun r => r.frame == prev_quarter_frame 2020 3) = some b →
        getVal scenOut.1 .revenue = .na ∨ getVal b.vals .revenue = .na ∨
          isZero (getVal b.vals .revenue) = true) ∧
    (∀ b, tblScen.find? (fun r => r.frame == prev_quarter_frame 2020 3) = some b →
      getVal scenOut.1 .revenue ≠ .na → getVal b.vals .revenue ≠ .na →
      isZero (getVal b.vals .revenue) = false →
      FinancialData.getD scenOut.2.1 .revenue =
        .val (pdiv (psub (getVal scenOut.1 .revenue) (getVal b.vals .revenue))
          (getVal b.vals .revenue))) ∧
    (FinancialData.getD scenOut.2.2 .revenue = .na ↔
      ∀ b, tblScen.find? (fun r => r.frame == prev_year_frame 2020 3) = some b →
        getVal scenOut.1 .revenue = .na ∨ getVal b.vals .revenue = .na ∨
          isZero (getVal b.vals .revenue) = true) ∧
    (∀ b, tblScen.find? (fun r => r.frame == prev_year_frame 2020 3) = some b →
      getVal scenOut.1 .revenue ≠ .na → getVal b.vals .revenue ≠ .na →
      isZero (getVal b.vals .revenue) = false →
      FinancialData.getD scenOut.2.2 .revenue =
        .val (pdiv (psub (getVal scenOut.1 .revenue) (getVal b.vals .revenue))
          (getVal b.vals .revenue)))) := by
  refine ⟨by rfl, rfl, rfl, rfl, by norm_num, ?_⟩
  exact C4_delta_guard_and_formula tblScen "CY2020Q3" scenOut 2020 3 .revenue
    (by rfl) (by decide)

namespace FinancialData

/-- Shape of every successful build: either the empty table (no metric had
usable facts) or the frame-deduplicated candidate rows with Gross Margin
appended. -/
theorem build_shape {fetched : Metric → Option (List RawEntry)} {tbl : List Row}
    (h : build_financial_table fetched = .ok tbl) :
    tbl = [] ∨ tbl = (dedupByFrame (candidateRows fetched)).map addGrossMargin := by
  unfold build_financial_table at h
  rcases hmd : mergedData fetched with ⟨orows, cols⟩
  cases orows with
  | none =>
    simp only [hmd] at h
    cases h
    exact Or.inl rfl
  | some rows =>
    simp only [hmd] at h
    by_cases hc : cols.contains Metric.revenue && cols.contains Metric.grossProfit
    · rw [if_pos hc] at h
      cases h
      exact Or.inr rfl
    · rw [if_neg hc] at h
      cases h

end FinancialData

/-- C1 (amended): the builder never reads `filedDate`; duplicate frames are
resolved only at table level, after the cross-metric merge and the
required-metric drop, by keeping the first row after sorting by period-end
date descending.  Hence the built table has exactly one row per frame, and
that row's period-end date is maximal among the surviving candidate rows of
its frame. -/
theorem C1_dedup_by_period_end (fetched : Metric → Option (List RawEntry))
    (tbl : List Row) (h : FinancialData.build_financial_table fetched = .ok tbl) :
    tbl.Pairwise (fun a b => a.frame ≠ b.frame) ∧
    ∀ r ∈ tbl, ∀ r' ∈ FinancialData.candidateRows fetched,
      r'.frame = r.frame → r'.date ≤ r.date := by
  rcases FinancialData.build_shape h with rfl | rfl
  · exact ⟨List.Pairwise.nil, fun r hr => absurd hr (List.not_mem_nil r)⟩
  · constructor
    · refine List.Pairwise.map _ ?_ (FinancialData.pairwise_dedupByFrameAux _ [])
      intro a b hab
      rw [FinancialData.addGrossMargin_frame, FinancialData.addGrossMargin_frame]
      exact hab
    · intro r hr r' hr' hframe
      rcases List.mem_map.mp hr with ⟨r0, hr0, rfl⟩
      rw [FinancialData.addGrossMargin_date]
      refine FinancialData.dedupByFrameAux_max_date _ []
        (FinancialData.candidateRows_sorted fetched) r0 hr0 r' hr' ?_
      rw [hframe, FinancialData.addGrossMargin_frame]

/-- C1 witness: `C1_dedup_by_period_end` applied to the concrete input
`cex1fetched`, whose build is `cex1tbl`. -/
theorem C1_dedup_by_period_end_witness :
    FinancialData.build_financial_table cex1fetched = .ok cex1tbl ∧
    cex1tbl.Pairwise (fun a b => a.frame ≠ b.frame) ∧
    (∀ r ∈ cex1tbl, ∀ r' ∈ FinancialData.candidateRows cex1fetched,
      r'.frame = r.frame → r'.date ≤ r.date) := by
  have hb : FinancialData.build_financial_table cex1fetched = .ok cex1tbl := by rfl
  exact ⟨hb, (C1_dedup_by_period_end cex1fetched cex1tbl hb).1,
    (C1_dedup_by_period_end cex1fetched cex1tbl hb).2⟩

/-- C1 counterexample: two Revenue facts share frame `CY2020Q1` with
different `filed` dates; the builder keeps the value 150 of the
earlier-filed fact (whose period end is later), not the value 100 of the
most recently filed fact — `filedDate` plays no role. -/
theorem C1_counterexample :
    entryLaterFiled.frame = "CY2020Q1" ∧
    entryEarlierFiled.frame = "CY2020Q1" ∧
    entryEarlierFiled.filed < entryLaterFiled.filed ∧
    entryLaterFiled.val = 100 ∧
    cex1fetched Metric.revenue = some [entryLaterFiled, entryEarlierFiled] ∧
    (FinancialData.build_financial_table cex1fetched).toOption.map
      (fun l => l.map rowView) =
      some [(744, "CY2020Q1", .num 150, .num 60, .na, .na, .num (60 / 150))] ∧
    (PVal.num 150 : PVal) ≠ .num entryLaterFiled.val := by
  refine ⟨rfl, rfl, by decide, rfl, rfl, by rfl, ?_⟩
  intro h
  injection h with h2
  exact absurd h2 (by norm_num [entryLaterFiled])

/-- C2 (amended): every row of a successfully built table has a non-empty
frame containing the character `"Q"` — that is the entire filter
`parse_data` applies; it does not require the quarterly form
`CY<year>Q<1-4>` (see the counterexample). -/
theorem C2_frame_filter (fetched : Metric → Option (List RawEntry))
    (tbl : List Row) (r : Row)
    (h : FinancialData.build_financial_table fetched = .ok tbl) (hr : r ∈ tbl) :
    r.frame ≠ "" ∧ hasQ r.frame = true := by
  rcases FinancialData.mem_build h hr with ⟨r0, hr0, rfl⟩
  have hcand := FinancialData.mem_dedupByFrameAux_subset _ _ _ hr0
  have hinv := (FinancialData.mem_candidateRows hcand).1
  rw [FinancialData.addGrossMargin_frame]
  exact ⟨hinv.1, hinv.2.1⟩

/-- C2 witness: `C2_frame_filter` applied to the concrete build of
`cex2fetched`. -/
theorem C2_frame_filter_witness :
    FinancialData.build_financial_table cex2fetched = .ok cex2tbl ∧
    ∀ r ∈ cex2tbl, r.frame ≠ "" ∧ hasQ r.frame = true := by
  have hb : FinancialData.build_financial_table cex2fetched = .ok cex2tbl := by rfl
  exact ⟨hb, fun r hr => C2_frame_filter cex2fetched cex2tbl r hb hr⟩

/-- C2 counterexample: the frame `CY2020Q1I` does not match `CY<year>Q<1-4>`,
yet its facts pass the filter (`"Q" in frame`) and produce a row of the
built table. -/
theorem C2_counterexample :
    isQuarterFrame "CY2020Q1I" = false ∧
    (FinancialData.build_financial_table cex2fetched).toOption.map
      (fun l => l.map rowView) =
      some [(700, "CY2020Q1I", .num 100, .num 40, .na, .na, .num (40 / 100))] :=
  ⟨by decide, by rfl⟩

/-- C3 (amended): in every row of a built table, Gross Profit and Revenue are
present finite numbers, and Gross Margin is always assigned
`Gross Profit / Revenue` under float semantics: the exact ratio when
Revenue ≠ 0, but a signed infinity when Revenue = 0 and Gross Profit ≠ 0
(NaN only when both are 0) — there is no zero-revenue guard leaving it
unset. -/
theorem C3_gross_margin (fetched : Metric → Option (List RawEntry))
    (tbl : List Row) (r : Row)
    (h : FinancialData.build_financial_table fetched = .ok tbl) (hr : r ∈ tbl) :
    ∃ g rv : ℚ, r.vals.grossProfit = .num g ∧ r.vals.revenue = .num rv ∧
      r.vals.grossMargin =
        (if rv = 0 then (if g = 0 then .na else if g < 0 then .ninf else .inf)
         else .num (g / rv)) := by
  rcases FinancialData.mem_build h hr with ⟨r0, hr0, rfl⟩
  have hcand := FinancialData.mem_dedupByFrameAux_subset _ _ _ hr0
  obtain ⟨hinv, hrev, hgp⟩ := FinancialData.mem_candidateRows hcand
  obtain ⟨-, -, hnrev, hngp, -⟩ := hinv
  obtain ⟨rv, hrv⟩ : ∃ rv, r0.vals.revenue = PVal.num rv := by
    rcases hnrev with hna | ⟨a, ha⟩
    · rw [hna] at hrev
      cases hrev
    · exact ⟨a, ha⟩
  obtain ⟨g, hg⟩ : ∃ g, r0.vals.grossProfit = PVal.num g := by
    rcases hngp with hna | ⟨a, ha⟩
    · rw [hna] at hgp
      cases hgp
    · exact ⟨a, ha⟩
  refine ⟨g, rv, ?_, ?_, ?_⟩
  · rw [FinancialData.addGrossMargin_grossProfit, hg]
  · rw [FinancialData.addGrossMargin_revenue, hrv]
  · rw [FinancialData.addGrossMargin_grossMargin, hg, hrv]
    rfl

/-- C3 witness: `C3_gross_margin` applied to the concrete build of
`cex3fetched` and its single row. -/
theorem C3_gross_margin_witness :
    FinancialData.build_financial_table cex3fetched = .ok cex3tbl ∧
    (∃ g rv : ℚ,
      (⟨700, "CY2020Q1", ⟨.num 0, .num 5, .na, .na, .inf⟩⟩ : Row).vals.grossProfit = .num g ∧
      (⟨700, "CY2020Q1", ⟨.num 0, .num 5, .na, .na, .inf⟩⟩ : Row).vals.revenue = .num rv ∧
      (⟨700, "CY2020Q1", ⟨.num 0, .num 5, .na, .na, .inf⟩⟩ : Row).vals.grossMargin =
        (if rv = 0 then (if g = 0 then .na else if g < 0 then .ninf else .inf)
         else .num (g / rv))) := by
  have hb : FinancialData.build_financial_table cex3fetched = .ok cex3tbl := by rfl
  exact ⟨hb, C3_gross_margin cex3fetched cex3tbl _ hb (by decide)⟩

/-- C3 counterexample: a row with Revenue 0 and Gross Profit 5 survives the
drop, and its Gross Margin is `inf` — a present infinity, not an unset
cell as the claim requires when Revenue = 0. -/
theorem C3_counterexample :
    (FinancialData.build_financial_table cex3fetched).toOption.map
      (fun l => l.map rowView) =
      some [(700, "CY2020Q1", .num 0, .num 5, .na, .na, .inf)] ∧
    notna .inf = true ∧ (PVal.inf : PVal) ≠ .na :=
  ⟨by rfl, rfl, by decide⟩

/-- C6 (amended): in `testingClaude`'s builder a row missing Revenue is
always dropped, but a row missing Gross Profit is dropped exactly when the
Gross Profit *column exists in the merged data* — i.e. when the Gross
Profit stream contributed at least one parsed fact — not when Gross Profit
is "part of the requested metric set": Gross Profit is always requested
(it is in `common_tags`), yet rows missing it are retained whenever its
stream yields no usable facts (see the counterexample). -/
theorem C6_required_metric_drop (fetched : Metric → Option (List RawEntry))
    (tbl : List Row) (r : Row)
    (h : TestingClaude.build_financial_table fetched = .ok tbl) (hr : r ∈ tbl) :
    notna r.vals.revenue = true ∧
      ((FinancialData.mergedData fetched).2.contains Metric.grossProfit = true →
        notna r.vals.grossProfit = true) :=
  TestingClaude.mem_build_tc h hr

/-- C6 witness: `C6_required_metric_drop` applied to the concrete build of
`cex6fetched` and its single row. -/
theorem C6_required_metric_drop_witness :
    TestingClaude.build_financial_table cex6fetched = .ok cex6tbl ∧
    (notna (⟨700, "CY2020Q1", ⟨.num 100, .na, .num 10, .na, .na⟩⟩ : Row).vals.revenue = true ∧
      ((FinancialData.mergedData cex6fetched).2.contains Metric.grossProfit = true →
        notna (⟨700, "CY2020Q1", ⟨.num 100, .na, .num 10, .na, .na⟩⟩ : Row).vals.grossProfit
          = true)) := by
  have hb : TestingClaude.build_financial_table cex6fetched = .ok cex6tbl := by rfl
  exact ⟨hb, C6_required_metric_drop cex6fetched cex6tbl _ hb (by decide)⟩

/-- C6 counterexample: Gross Profit is in the requested metric set
(`baseMetrics`, i.e. `full_tags` always contains it), its fetch succeeds but
yields no usable facts, and the builder then retains a row whose Gross
Profit is missing — contradicting "a row missing Gross Profit is dropped
when Gross Profit is part of the requested metric set". -/
theorem C6_counterexample :
    Metric.grossProfit ∈ baseMetrics ∧
    cex6fetched Metric.grossProfit = some [] ∧
    (TestingClaude.build_financial_table cex6fetched).toOption.map
      (fun l => l.map rowView) =
      some [(700, "CY2020Q1", .num 100, .na, .num 10, .na, .na)] ∧
    notna PVal.na = false :=
  ⟨by decide, rfl, by rfl, rfl⟩
